import Mathlib

/-!
Shallow embedding of the teleport-collectd plugin core (`src/lib.rs`):
the path-indexed tracer registry (`TeleportColelctd::write_value`), the
severity-level loggers (`TeleportColelctd::new` / `Plugin::log`) and the
batch dispatcher (`Plugin::write_values`).

External crates are modelled by their observable behaviour:
* `rillrate`'s `Pathfinder` registry is modelled as a path-keyed store
  (the spec explicitly allows swapping the trie for a path-keyed map);
  `dig(path).set_link(tracer)` stores a link at the path, shadowing any
  link previously attached there, and `find
  (path).and_then(Record::get_link)` returns the most recently attached
  link.
* `LogTracer` construction is modelled as allocating a fresh identity
  (a counter); whether a tracer `is_active` is owned by the backend,
  so it is passed in as an oracle on identities.
* `RwLock` read/write acquisition is modelled with a `poisoned` flag:
  when set, every acquisition fails (the `map_err` branches of the
  source), when clear, acquisition succeeds.
-/

deriving instance DecidableEq for Except

namespace TeleportCollectd

/-- `EntryId` of the `rillrate` protocol: one path segment, compared by
string value. -/
abbrev EntryId := String

/-- `Path`: ordered sequence of segments, the registry key. -/
abbrev Path := List EntryId

/-- One invocation of `LogTracer::log`: the stringified value and the
optional timestamp argument. -/
structure LogEvent where
  value : String
  ts : Option String
  deriving DecidableEq

/-- The only failure `write_value` itself can produce: a poisoned
`RwLock` (`self.tracers.read()` / `.write()` returning `Err`). -/
inductive WriteErr where
  | lockPoisoned
  deriving DecidableEq

/-- The `Pathfinder<LogTracer>` registry, modelled as a path-keyed store
of tracer identities.  The newest entry for a path shadows older ones,
matching `dig(path).set_link(tracer)` overwriting the record's link;
keeping the full history lets the development count attachments. -/
structure Pathfinder where
  entries : List (Path × Nat)
  deriving DecidableEq

/-- `Pathfinder::new()`. -/
def Pathfinder.new : Pathfinder := ⟨[]⟩

/-- `tracers.find(&path).and_then(Record::get_link)`: the link most
recently attached at exactly `p`, if any. -/
def Pathfinder.find (pf : Pathfinder) (p : Path) : Option Nat :=
  (pf.entries.find? fun e => e.1 == p).map Prod.snd

/-- `tracers.dig(path).set_link(tracer)`: attach tracer identity `t` at
`p` (digging intermediate nodes, which the path-keyed view keeps
implicit); an existing link at `p` is shadowed. -/
def Pathfinder.digSetLink (pf : Pathfinder) (p : Path) (t : Nat) : Pathfinder :=
  ⟨(p, t) :: pf.entries⟩

/-- State threaded through `write_value`: the registry plus the
construction counter handing each `LogTracer::new` a fresh identity. -/
structure RegState where
  pf : Pathfinder
  nextId : Nat
  deriving DecidableEq

/-- Initial state: empty registry, no tracer constructed yet. -/
def RegState.empty : RegState := ⟨Pathfinder.new, 0⟩

/-- First block of `write_value` (executed under the shared lock):
acquire `self.tracers.read()` (fails if poisoned) and look the path up. -/
def readSection (poisoned : Bool) (st : RegState) (p : Path) :
    Except WriteErr (Option Nat) :=
  if poisoned then .error .lockPoisoned else .ok (st.pf.find p)

/-- Second block of `write_value` (executed under the exclusive lock):
acquire `self.tracers.write()` (fails if poisoned), construct a new
`LogTracer` (fresh identity `st.nextId`) and attach it at `p`.  Note the
source performs no re-check of existence before attaching. -/
def writeSection (poisoned : Bool) (st : RegState) (p : Path) :
    Except WriteErr RegState :=
  if poisoned then .error .lockPoisoned
  else .ok ⟨st.pf.digSetLink p st.nextId, st.nextId + 1⟩

/-- `TeleportColelctd::write_value(path, ts, report)`: look for an
existing tracer under the shared lock; if found and active, log the
stringified value with `None` as timestamp and return `Ok`; if found and
inactive, return `Ok` without logging; if absent, run the write section
and return `Ok`.  The `ts` argument is the `_ts` parameter of the
source: bound but never used. -/
def write_value (poisoned : Bool) (act : Nat → Bool) (st : RegState)
    (p : Path) (ts : String) (v : String) :
    Except WriteErr (RegState × List LogEvent) :=
  match readSection poisoned st p with
  | .error e => .error e
  | .ok (some tracer) =>
      .ok (st, if act tracer then [⟨v, none⟩] else [])
  | .ok none =>
      match writeSection poisoned st p with
      | .error e => .error e
      | .ok st1 => .ok (st1, [])

/-! ## Severity-level loggers (`TeleportColelctd::new` and `Plugin::log`) -/

/-- `collectd_plugin::LogLevel` (declared order `Error, Warning, Notice,
Info, Debug`). -/
inductive LogLevel where
  | error
  | warning
  | notice
  | info
  | debug
  deriving DecidableEq

/-- `LogLevel::iter()` (strum `EnumIter`): every variant, in declaration
order. -/
def LogLevel.iterAll : List LogLevel :=
  [.error, .warning, .notice, .info, .debug]

/-- `level.as_ref()` (strum `AsRefStr`): the variant's name. -/
def LogLevel.asRef : LogLevel → String
  | .error => "Error"
  | .warning => "Warning"
  | .notice => "Notice"
  | .info => "Info"
  | .debug => "Debug"

/-- The `loggers` map built by `TeleportColelctd::new()`: for each level
of `LogLevel::iter()`, insert a `LogTracer` bound to the path
`["log", level.as_ref()]`.  The `HashMap` is modelled as an association
list where insertion shadows; keys are pairwise distinct here. -/
def newLoggers : List (LogLevel × Path) :=
  LogLevel.iterAll.foldl (fun m level => (level, ["log", level.asRef]) :: m) []

/-- `loggers.get(&lvl)` on the association-list model. -/
def lookupLogger (m : List (LogLevel × Path)) (lvl : LogLevel) : Option Path :=
  (m.find? fun e => e.1 == lvl).map Prod.snd

/-- `Plugin::log(lvl, msg)`: acquire `self.loggers.read()` (fails if
poisoned), look the level up — `.ok none` models the `unwrap` panicking
on a missing entry — and if the tracer is active, log the message with
`None` as timestamp.  Logger activity is an oracle on the logger's
path. -/
def plugin_log (poisoned : Bool) (act : Path → Bool) (lvl : LogLevel)
    (msg : String) : Except WriteErr (Option (List LogEvent)) :=
  if poisoned then .error .lockPoisoned
  else
    match lookupLogger newLoggers lvl with
    | none => .ok none
    | some p => .ok (some (if act p then [⟨msg, none⟩] else []))

/-! ## Dispatcher (`Plugin::write_values`) -/

/-- One `ValueReport`: the data-source name and the already stringified
value (`report.value.to_string()`). -/
structure ValueReport where
  name : String
  value : String
  deriving DecidableEq

/-- The fields of `ValueList` the dispatcher reads.  `plugin_instance`
and `type_instance` are `Option<&str>` in the source (the host maps
empty strings to `None`); `time` is the report timestamp, stringified by
`write_values`. -/
structure ValueList where
  host : String
  plugin : String
  plugin_instance : Option String
  type_ : String
  type_instance : Option String
  time : Nat
  values : List ValueReport
  deriving DecidableEq

/-- The basic path built by `write_values`, push by push: `host`, then
`plugin`, then the plugin instance if present, then the type unless
`typ == plugin` (`skip_type`), then the type instance if present. -/
def basicPath (l : ValueList) : Path :=
  let host := l.host
  let plugin := l.plugin
  let typ := l.type_
  let entries0 : List EntryId := [host]
  let skip_type := typ == plugin
  let entries1 := entries0 ++ [plugin]
  let entries2 :=
    match l.plugin_instance with
    | some v => entries1 ++ [v]
    | none => entries1
  let entries3 := if !skip_type then entries2 ++ [typ] else entries2
  let entries4 :=
    match l.type_instance with
    | some v => entries3 ++ [v]
    | none => entries3
  entries4

/-- `basic_path.concat(report.name)`: the per-value path of the
multi-value branch. -/
def extendedPath (l : ValueList) (r : ValueReport) : Path :=
  basicPath l ++ [r.name]

/-- The paths `write_values` hands to `write_value`: the basic path
alone when the report has exactly one value, one extended path per value
otherwise. -/
def dispatchPaths (l : ValueList) : List Path :=
  if l.values.length == 1 then [basicPath l]
  else l.values.map (extendedPath l)

/-- `Result::err` of the source: the error of a failed computation. -/
def exceptErr : Except ε α → Option ε
  | .error e => some e
  | .ok _ => none

/-- Result of rayon's `find_map_last` over a list whose per-item results
are fixed: the last non-`none` result (rayon's `find_map_last` is
guaranteed to return the sequentially last match). -/
def findMapLast (f : α → Option β) (xs : List α) : Option β :=
  xs.foldl (fun acc x => match f x with | some b => some b | none => acc) none

/-- `Plugin::write_values(list)`: build the basic path and the
stringified timestamp; with exactly one value, write it under the basic
path; with several, fan out `write_value` over the extended paths and
keep the last error (`find_map_last`); return `Err` with the one
representative error if any write failed, `Ok` otherwise.  A
`write_value` call's result does not depend on the registry contents
(see `exceptErr_write_value`), so handing every fan-out call the entry
state is exact for the returned value. -/
def write_values (poisoned : Bool) (act : Nat → Bool) (st : RegState)
    (l : ValueList) : Except WriteErr Unit :=
  let ts := toString l.time
  let err : Option WriteErr :=
    if l.values.length == 1 then
      match l.values.get? 0 with
      | some report =>
          exceptErr (write_value poisoned act st (basicPath l) ts report.value)
      | none => none
    else
      findMapLast
        (fun report =>
          exceptErr (write_value poisoned act st (extendedPath l report) ts report.value))
        l.values
  match err with
  | some e => .error e
  | none => .ok ()

/-- The result of the write the dispatcher performs for value `i` of the
report: under the basic path in the single-value branch, under the
extended path otherwise; `none` when there is no value `i`. -/
def perValueOutcome (poisoned : Bool) (act : Nat → Bool) (st : RegState)
    (l : ValueList) (i : Nat) : Option WriteErr :=
  match l.values.get? i with
  | none => none
  | some report =>
      if l.values.length == 1 then
        exceptErr (write_value poisoned act st (basicPath l) (toString l.time) report.value)
      else
        exceptErr (write_value poisoned act st (extendedPath l report) (toString l.time) report.value)

/-- Index of the sequentially last item whose result is a match, among
the first `n`. -/
def lastMatchIdx (f : Nat → Option β) (n : Nat) : Option Nat :=
  (List.range n).foldl (fun acc i => if (f i).isSome then some i else acc) none

/-- Execution contract of rayon's `par_iter().find_map_last(f)` over `n`
items: `attempted i` records whether item `i`'s closure ran.  The
returned value is the sequentially last match; every item at or after
the last match is attempted (rayon must evaluate them to certify the
match is last), and when there is no match every item is attempted;
items before a found match may be skipped ("attempts to the left of the
match will be stopped"). -/
def ValidFanoutExec (f : Nat → Option β) (n : Nat) (attempted : Nat → Bool)
    (res : Option β) : Prop :=
  res = findMapLast f (List.range n) ∧
  ∀ j, j < n → (lastMatchIdx f n).getD 0 ≤ j → attempted j = true

/-- The `log` invocations a successful `write_value` call performed
(none when the call failed). -/
def okEvents : Except WriteErr (RegState × List LogEvent) → List LogEvent
  | .ok (_, evs) => evs
  | .error _ => []

/-- The `log` invocations a `plugin_log` call performed (none when it
failed or the level lookup missed). -/
def logEvents : Except WriteErr (Option (List LogEvent)) → List LogEvent
  | .ok (some evs) => evs
  | .ok none => []
  | .error _ => []

/-- A concrete two-value report (the spec's end-to-end scenario), used
by witnesses and counterexamples. -/
def sampleList : ValueList :=
  ⟨"h1", "disk", some "sda", "disk_octets", none, 7,
    [⟨"read", "10"⟩, ⟨"write", "20"⟩]⟩

/-! ## Helper lemmas -/

/-- Whether `write_value` fails depends only on lock poisoning: the
registry contents, the path and the report never make it return `Err`. -/
theorem exceptErr_write_value (poisoned : Bool) (act : Nat → Bool)
    (st : RegState) (p : Path) (ts v : String) :
    exceptErr (write_value poisoned act st p ts v) =
      if poisoned then some .lockPoisoned else none := by
  cases poisoned with
  | true => rfl
  | false =>
      unfold write_value readSection writeSection
      cases st.pf.find p <;> rfl

/-- `findMapLast` of an all-`none` mapping is `none`. -/
theorem findMapLast_eq_none (f : α → Option β) (xs : List α)
    (h : ∀ x ∈ xs, f x = none) : findMapLast f xs = none := by
  unfold findMapLast
  induction xs with
  | nil => rfl
  | cons x xs ih =>
      rw [List.foldl_cons, h x (List.mem_cons_self x xs)]
      exact ih fun y hy => h y (List.mem_cons_of_mem x hy)

/-- `findMapLast` of a constant match over a nonempty list is that
match. -/
theorem findMapLast_const_some (e : β) (x : α) (xs : List α) :
    findMapLast (fun _ => some e) (x :: xs) = some e := by
  show xs.foldl (fun acc y =>
    match (fun _ : α => some e) y with | some b => some b | none => acc) (some e) = some e
  induction xs with
  | nil => rfl
  | cons y ys ih => exact ih

/-- When no item matches, `lastMatchIdx` finds nothing. -/
theorem lastMatchIdx_eq_none (f : Nat → Option β) (n : Nat)
    (h : ∀ i, f i = none) : lastMatchIdx f n = none := by
  unfold lastMatchIdx
  have aux : ∀ (l : List Nat) (acc : Option Nat),
      l.foldl (fun acc i => if (f i).isSome then some i else acc) acc = acc := by
    intro l
    induction l with
    | nil => intro acc; rfl
    | cons x xs ih =>
        intro acc
        rw [List.foldl_cons, h x]
        exact ih acc
  exact aux (List.range n) none

/-- The dispatcher's per-value writes never fail when the lock is not
poisoned. -/
theorem perValueOutcome_false (act : Nat → Bool) (st : RegState)
    (l : ValueList) (i : Nat) : perValueOutcome false act st l i = none := by
  unfold perValueOutcome
  cases hv : l.values.get? i with
  | none => rfl
  | some r => simp [exceptErr_write_value]

/-- Full characterization of `write_values`: it fails exactly when the
lock is poisoned and the report carries at least one value, and then
with the poisoning error. -/
theorem write_values_eq (poisoned : Bool) (act : Nat → Bool) (st : RegState)
    (l : ValueList) :
    write_values poisoned act st l =
      if poisoned && !l.values.isEmpty then .error .lockPoisoned
      else .ok () := by
  obtain ⟨h1, p1, pi, ty, ti, t, vs⟩ := l
  unfold write_values
  cases poisoned with
  | false =>
      simp only [exceptErr_write_value, Bool.false_and, if_false]
      cases vs with
      | nil => rfl
      | cons r rs =>
          cases rs with
          | nil => rfl
          | cons r2 rs2 =>
              rw [findMapLast_eq_none]
              · rfl
              · intro x hx; rfl
  | true =>
      simp only [exceptErr_write_value]
      cases vs with
      | nil => rfl
      | cons r rs =>
          cases rs with
          | nil => rfl
          | cons r2 rs2 => simp [findMapLast_const_some]

/-- Branch-level characterization of an unpoisoned `write_value` call:
found tracers are logged to when active, an absent path gets a freshly
constructed tracer attached. -/
theorem write_value_false_eq (act : Nat → Bool) (st : RegState) (p : Path)
    (ts v : String) :
    write_value false act st p ts v =
      match st.pf.find p with
      | some tr => .ok (st, if act tr then [⟨v, none⟩] else [])
      | none => .ok (⟨st.pf.digSetLink p st.nextId, st.nextId + 1⟩, []) := by
  unfold write_value readSection writeSection
  cases st.pf.find p <;> rfl

/-- A link just attached at `p` is what `find` returns for `p`. -/
theorem find_digSetLink_self (pf : Pathfinder) (p : Path) (t : Nat) :
    (pf.digSetLink p t).find p = some t := by
  unfold Pathfinder.digSetLink Pathfinder.find
  simp [List.find?]

/-- The loggers map has the expected entry for every level. -/
theorem lookupLogger_newLoggers (lvl : LogLevel) :
    lookupLogger newLoggers lvl = some ["log", lvl.asRef] := by
  cases lvl <;> rfl

/-! ## Claim theorems -/

/-- C1: the claim states `write_value` re-checks for existence after
acquiring the exclusive lock and creates only if the path is still
absent, so at most one tracer is ever constructed and attached per path
under concurrency.  The code has no such re-check: its write section
unconditionally constructs and attaches.  Under the interleaving in
which two callers both run their read section (both finding nothing)
before either runs its write section, two tracers are constructed
(`nextId` reaches `2`), both are attached at the path, and the second
attachment shadows the first (`find` returns tracer `1`, not tracer
`0`). -/
theorem write_race_two_tracers_constructed :
    readSection false RegState.empty ["h", "cpu"] = .ok none ∧
    writeSection false RegState.empty ["h", "cpu"] =
      .ok ⟨⟨[(["h", "cpu"], 0)]⟩, 1⟩ ∧
    writeSection false ⟨⟨[(["h", "cpu"], 0)]⟩, 1⟩ ["h", "cpu"] =
      .ok ⟨⟨[(["h", "cpu"], 1), (["h", "cpu"], 0)]⟩, 2⟩ ∧
    (⟨⟨[(["h", "cpu"], 1), (["h", "cpu"], 0)]⟩, 2⟩ : RegState).nextId = 2 ∧
    Pathfinder.find ⟨[(["h", "cpu"], 1), (["h", "cpu"], 0)]⟩ ["h", "cpu"] = some 1 := by
  exact ⟨rfl, rfl, rfl, rfl, by decide⟩

/-- C2: the basic path is host, then source, then the source instance
iff present, then the metric type unless textually identical to the
source, then the type instance iff present, all segments verbatim. -/
theorem basic_path_segments (l : ValueList) :
    basicPath l = [l.host, l.plugin] ++ l.plugin_instance.toList ++
      (if l.type_ = l.plugin then [] else [l.type_]) ++ l.type_instance.toList := by
  obtain ⟨h1, p1, pi, ty, ti, t, vs⟩ := l
  unfold basicPath
  cases pi <;> cases ti <;> by_cases hty : ty = p1 <;> simp [hty]

/-- C4: resolving the same path twice sequentially is idempotent: after
the first call (which may create and attach a tracer), the second call
finds a tracer for the path, leaves the registry state completely
unchanged (nothing constructed, nothing attached) and logs to that found
tracer exactly when it is active. -/
theorem resolve_idempotent (act act2 : Nat → Bool) (st : RegState) (p : Path)
    (ts ts2 v v2 : String) (st1 : RegState) (evs : List LogEvent)
    (h : write_value false act st p ts v = .ok (st1, evs)) :
    ∃ tr, st1.pf.find p = some tr ∧
      write_value false act2 st1 p ts2 v2 =
        .ok (st1, if act2 tr then [⟨v2, none⟩] else []) := by
  rw [write_value_false_eq] at h
  rcases hf : st.pf.find p with _ | tr
  · rw [hf] at h
    simp only [Except.ok.injEq, Prod.mk.injEq] at h
    obtain ⟨h1, _⟩ := h
    subst h1
    refine ⟨st.nextId, find_digSetLink_self st.pf p st.nextId, ?_⟩
    rw [write_value_false_eq]
    simp [find_digSetLink_self]
  · rw [hf] at h
    simp only [Except.ok.injEq, Prod.mk.injEq] at h
    obtain ⟨h1, _⟩ := h
    subst h1
    refine ⟨tr, hf, ?_⟩
    rw [write_value_false_eq, hf]

/-- C4 witness: a fresh path on the empty registry; the first call
attaches tracer `0`, the second call finds it and leaves the state
unchanged. -/
theorem resolve_idempotent_witness :
    ∃ tr, (⟨⟨[(["h1", "cpu"], 0)]⟩, 1⟩ : RegState).pf.find ["h1", "cpu"] = some tr ∧
      write_value false (fun _ => true) ⟨⟨[(["h1", "cpu"], 0)]⟩, 1⟩ ["h1", "cpu"] "1" "w" =
        .ok (⟨⟨[(["h1", "cpu"], 0)]⟩, 1⟩, if (fun _ : Nat => true) tr then [⟨"w", none⟩] else []) :=
  resolve_idempotent (fun _ => false) (fun _ => true) RegState.empty ["h1", "cpu"]
    "0" "1" "v" "w" ⟨⟨[(["h1", "cpu"], 0)]⟩, 1⟩ [] rfl

/-- C5: a write addressed to a path whose tracer is not active — or to a
path with no tracer yet, whose freshly created tracer is never consulted
for activity in the creating call — performs no `log` call and returns
success. -/
theorem inactive_write_silent (act : Nat → Bool) (st : RegState) (p : Path)
    (ts v : String)
    (h : ((st.pf.find p).all fun t => !act t) = true) :
    ∃ st1, write_value false act st p ts v = .ok (st1, []) := by
  rw [write_value_false_eq]
  rcases hf : st.pf.find p with _ | tr
  · exact ⟨_, rfl⟩
  · rw [hf] at h
    simp only [Option.all_some, Bool.not_eq_true'] at h
    exact ⟨st, by simp [h]⟩

/-- C5 witness: writing to a fresh path of the empty registry under an
oracle that marks every tracer active still logs nothing and succeeds —
the freshly created tracer is not treated as active. -/
theorem inactive_write_silent_witness :
    ((RegState.empty.pf.find ["h1", "cpu"]).all fun t => !(fun _ : Nat => true) t) = true ∧
    ∃ st1, write_value false (fun _ => true) RegState.empty ["h1", "cpu"] "0" "1" =
      .ok (st1, []) :=
  ⟨by decide,
    inactive_write_silent (fun _ => true) RegState.empty ["h1", "cpu"] "0" "1" (by decide)⟩

/-- C6: when the registry lock is poisoned, `write_value` fails with the
poisoning error (so nothing is created or attached — no success state
exists), and `write_values` propagates that failure to its caller
whenever the report carries at least one value. -/
theorem lock_poisoned_propagates (act : Nat → Bool) (st : RegState) (p : Path)
    (ts v : String) (l : ValueList) :
    write_value true act st p ts v = .error .lockPoisoned ∧
    write_values true act st l =
      (if l.values.isEmpty then .ok () else .error .lockPoisoned) := by
  refine ⟨rfl, ?_⟩
  rw [write_values_eq]
  cases hl : l.values.isEmpty <;> simp

/-- C3: a single-valued report is written under the basic path with no
value-name segment; a report with more than one value produces one
extended path per value (the basic path plus that value's name), whose
paths are pairwise distinct when the value names are, and — in any valid
fan-out execution with no failing write (here with the lock not
poisoned, the only failure source) — exactly one resolve-or-create
invocation per value. -/
theorem multi_value_fanout_paths (act : Nat → Bool) (st : RegState)
    (l : ValueList) (attempted : Nat → Bool) (res : Option WriteErr)
    (hexec : ValidFanoutExec (perValueOutcome false act st l)
      l.values.length attempted res) :
    (l.values.length = 1 → dispatchPaths l = [basicPath l]) ∧
    (1 < l.values.length →
      dispatchPaths l = l.values.map (fun r => basicPath l ++ [r.name]) ∧
      ((l.values.map ValueReport.name).Nodup → (dispatchPaths l).Nodup) ∧
      ∀ j, j < l.values.length → attempted j = true) := by
  constructor
  · intro h1
    simp [dispatchPaths, h1]
  · intro hlt
    have hne : (l.values.length == 1) = false := by
      simp [Nat.ne_of_gt hlt]
    refine ⟨?_, ?_, ?_⟩
    · simp [dispatchPaths, hne, extendedPath]
    · intro hnd
      have hmap : dispatchPaths l =
          (l.values.map ValueReport.name).map (fun n => basicPath l ++ [n]) := by
        simp [dispatchPaths, hne, extendedPath, List.map_map]
      rw [hmap]
      refine List.Nodup.map ?_ hnd
      intro a b hab
      have := List.append_cancel_left hab
      simpa using this
    · intro j hj
      have hnone : lastMatchIdx (perValueOutcome false act st l)
          l.values.length = none :=
        lastMatchIdx_eq_none _ _ (perValueOutcome_false act st l)
      have h2 := hexec.2 j hj
      rw [hnone] at h2
      exact h2 (Nat.zero_le j)

/-- C3 witness: the sample two-value report under an all-attempted
execution; both extended paths are produced, they are distinct, and both
values are attempted. -/
theorem multi_value_fanout_paths_witness :
    dispatchPaths sampleList =
      sampleList.values.map (fun r => basicPath sampleList ++ [r.name]) ∧
    (dispatchPaths sampleList).Nodup ∧ (fun _ : Nat => true) 0 = true := by
  have h := multi_value_fanout_paths (fun _ => false) RegState.empty sampleList
    (fun _ => true) none ⟨by decide, by decide⟩
  have h2 := h.2 (by decide)
  exact ⟨h2.1, h2.2.1 (by decide), h2.2.2 0 (by decide)⟩

/-- C7: the batch write fails exactly when at least one per-value write
fails, and the single representative error it reports is the outcome of
one of the values' writes (the return type carries at most one error). -/
theorem batch_error_aggregation (poisoned : Bool) (act : Nat → Bool)
    (st : RegState) (l : ValueList) :
    ((exceptErr (write_values poisoned act st l)).isSome = true ↔
      ∃ i, i < l.values.length ∧
        (perValueOutcome poisoned act st l i).isSome = true) ∧
    ∀ e, write_values poisoned act st l = .error e →
      ∃ i, i < l.values.length ∧ perValueOutcome poisoned act st l i = some e := by
  cases poisoned with
  | false =>
      constructor
      · rw [write_values_eq]
        simp [perValueOutcome_false, exceptErr]
      · intro e he
        rw [write_values_eq] at he
        simp at he
  | true =>
      have hout : ∀ i r, l.values.get? i = some r →
          perValueOutcome true act st l i = some .lockPoisoned := by
        intro i r hget
        unfold perValueOutcome
        rw [hget]
        simp [exceptErr_write_value]
      cases hvs : l.values with
      | nil =>
          constructor
          · rw [write_values_eq, hvs]
            simp [exceptErr]
          · intro e he
            rw [write_values_eq, hvs] at he
            simp at he
      | cons r rs =>
          have hget0 : l.values.get? 0 = some r := by rw [hvs]; rfl
          have hlen : 0 < (r :: rs).length := by simp
          constructor
          · rw [write_values_eq, hvs]
            constructor
            · intro _
              exact ⟨0, hlen, by rw [hout 0 r hget0]; rfl⟩
            · intro _
              rfl
          · intro e he
            rw [write_values_eq, hvs] at he
            have he2 : (Except.error WriteErr.lockPoisoned : Except WriteErr Unit) =
                Except.error e := he
            injection he2 with he3
            exact ⟨0, hlen, by rw [hout 0 r hget0, he3]⟩

/-- C7 witness: a poisoned lock makes the sample batch write fail, and
the reported error is value 0's outcome. -/
theorem batch_error_aggregation_witness :
    ∃ i, i < sampleList.values.length ∧
      perValueOutcome true (fun _ => false) RegState.empty sampleList i =
        some .lockPoisoned :=
  (batch_error_aggregation true (fun _ => false) RegState.empty sampleList).2
    .lockPoisoned (by rw [write_values_eq]; rfl)

/-- C8 counterexample: as stated the claim fails — with the lock
poisoned (so both values' writes fail), the execution that attempts only
value 1 and returns its error satisfies rayon's `find_map_last`
contract, yet value 0 is never attempted. -/
theorem fanout_skip_counterexample :
    ¬ ∀ (attempted : Nat → Bool) (res : Option WriteErr),
        ValidFanoutExec (perValueOutcome true (fun _ => false) RegState.empty sampleList)
          sampleList.values.length attempted res →
        ∀ j, j < sampleList.values.length → attempted j = true := by
  intro hclaim
  have h0 := hclaim (fun j => j == 1) (some .lockPoisoned)
    ⟨by decide, by decide⟩ 0 (by decide)
  simp at h0

/-- C8 (amended): when no per-value write fails — in this code the only
failure source is lock poisoning, so whenever the lock is not poisoned —
every value of the batch is attempted; when writes do fail, every value
from the sequentially last failing one onward is still attempted, but
earlier values may be skipped by the parallel search. -/
theorem fanout_all_attempted_when_no_failure (act : Nat → Bool)
    (st : RegState) (l : ValueList) (attempted : Nat → Bool)
    (res : Option WriteErr)
    (hexec : ValidFanoutExec (perValueOutcome false act st l)
      l.values.length attempted res) :
    ∀ j, j < l.values.length → attempted j = true := by
  intro j hj
  have hnone : lastMatchIdx (perValueOutcome false act st l)
      l.values.length = none :=
    lastMatchIdx_eq_none _ _ (perValueOutcome_false act st l)
  have h2 := hexec.2 j hj
  rw [hnone] at h2
  exact h2 (Nat.zero_le j)

/-- C8 witness: with an unpoisoned lock, the all-attempted execution of
the sample batch is valid and value 0 is attempted. -/
theorem fanout_all_attempted_when_no_failure_witness :
    ValidFanoutExec (perValueOutcome false (fun _ => false) RegState.empty sampleList)
      sampleList.values.length (fun _ => true) none ∧
    (fun _ : Nat => true) 0 = true :=
  ⟨⟨by decide, by decide⟩,
    fanout_all_attempted_when_no_failure (fun _ => false) RegState.empty
      sampleList (fun _ => true) none ⟨by decide, by decide⟩ 0 (by decide)⟩

/-- C9: the loggers map built at construction has an entry for every
severity level, bound to the path `["log", <level-name>]`, so the `log`
lookup always succeeds (the `unwrap` never panics) and the message is
written (one event, no timestamp) exactly when that level's tracer is
active. -/
theorem level_lookup_never_fails (act : Path → Bool) (lvl : LogLevel)
    (msg : String) :
    lookupLogger newLoggers lvl = some ["log", lvl.asRef] ∧
    plugin_log false act lvl msg =
      .ok (some (if act ["log", lvl.asRef] then [⟨msg, none⟩] else [])) := by
  cases lvl <;> exact ⟨rfl, rfl⟩

/-- C10: no log call ever forwards a timestamp: `write_value` ignores
its timestamp argument entirely, every event it emits carries `none`,
`write_values` is insensitive to the report's timestamp beyond
stringifying it, and every event of the severity-level path carries
`none` as well. -/
theorem no_timestamp_forwarded (poisoned : Bool) (act : Nat → Bool)
    (st : RegState) (p : Path) (ts1 ts2 v : String) (pl : Bool)
    (lact : Path → Bool) (lvl : LogLevel) (msg : String) (h1 p1 : String)
    (pi : Option String) (ty : String) (ti : Option String) (t1 t2 : Nat)
    (vs : List ValueReport) :
    write_value poisoned act st p ts1 v = write_value poisoned act st p ts2 v ∧
    (okEvents (write_value poisoned act st p ts1 v)).all (fun e => e.ts.isNone) = true ∧
    write_values poisoned act st ⟨h1, p1, pi, ty, ti, t1, vs⟩ =
      write_values poisoned act st ⟨h1, p1, pi, ty, ti, t2, vs⟩ ∧
    (logEvents (plugin_log pl lact lvl msg)).all (fun e => e.ts.isNone) = true := by
  refine ⟨rfl, ?_, ?_, ?_⟩
  · cases poisoned with
    | true => rfl
    | false =>
        rw [write_value_false_eq]
        rcases st.pf.find p with _ | tr
        · rfl
        · cases h2 : act tr <;> simp [h2, okEvents]
  · rw [write_values_eq, write_values_eq]
  · cases pl with
    | true => rfl
    | false =>
        simp only [plugin_log, lookupLogger_newLoggers, if_false, Bool.false_eq_true]
        cases h3 : lact ["log", lvl.asRef] <;> simp [h3, logEvents]

end TeleportCollectd
